import Mathlib

/-!
Verification development for the MovieAP backend.

The repository contains two generations of several handlers; both are
embedded where a claim cites both.  Review ratings are modelled as
rationals (the store holds JS numbers; the schema constrains the range,
not integrality), document ids as naturals, and each Express handler as
a function from a database value to a response paired with the new
database value.
-/

namespace MovieAP

/-- `role` field of the user model (`src/models/user.model.js`): `user` or `admin`. -/
inductive Role where
  | user
  | admin
deriving DecidableEq, Repr

/-- The authenticated actor attached to a request by the `authenticate`
middleware: its `_id` and its `role`. -/
structure Principal where
  pid : Nat
  role : Role
deriving DecidableEq, Repr

/-- A document of the `Review` collection (`src/models/review.model.js`):
references to the authoring user and the reviewed movie, the numeric
rating and the review text. -/
structure Review where
  rid : Nat
  user : Nat
  movie : Nat
  rating : ℚ
  comment : String
deriving DecidableEq, Repr

/-- One entry of `movie.cast` in the embedded-person movie schema:
only the queried path `cast.actor.name` is kept. -/
structure CastMember where
  actorName : String
deriving DecidableEq, Repr

/-- One entry of `movie.crew`: only the queried path `crew.name` is kept. -/
structure CrewMember where
  name : String
deriving DecidableEq, Repr

/-- A document of the `Movie` collection, keeping the fields the verified
handlers read or write: `genre`, `cast`, `crew`, `ageRating.rating`,
`technicalSpecs.language`, and the derived `averageRating` /
`totalRatings` (both default 0 on creation). -/
structure Movie where
  mid : Nat
  genre : List String
  cast : List CastMember
  crew : List CrewMember
  ageRating : String
  languages : List String
  averageRating : ℚ
  totalRatings : Nat
deriving DecidableEq, Repr

/-- `user.preferences` from the user model: five string lists. -/
structure Preferences where
  favoriteGenres : List String
  favoriteActors : List String
  favoriteDirectors : List String
  contentRating : List String
  languages : List String
deriving DecidableEq, Repr

/-- The slice of a `User` document used by the recommendation and wishlist
handlers: `_id`, `preferences`, `wishlist` and `watchedMovies` (movie id
references). -/
structure User where
  uid : Nat
  preferences : Preferences
  wishlist : List Nat
  watchedMovies : List Nat
deriving DecidableEq, Repr

/-- The review and movie collections of the document store. -/
structure DB where
  reviews : List Review
  movies : List Movie
deriving DecidableEq, Repr

/-- The response a handler sends: constructor per status code used by the
embedded handlers (201, 200, 400, 404, 403). -/
inductive ApiResult where
  | created (rid : Nat)
  | ok
  | badRequest (msg : String)
  | notFound (msg : String)
  | forbidden (msg : String)
deriving DecidableEq, Repr

/-- HTTP status code of a response. -/
def ApiResult.status : ApiResult → Nat
  | .created _ => 201
  | .ok => 200
  | .badRequest _ => 400
  | .notFound _ => 404
  | .forbidden _ => 403

/-- `Review.find({ movie: movieId })`. -/
def reviewsFor (rs : List Review) (movieId : Nat) : List Review :=
  rs.filter (fun r => r.movie == movieId)

/-- `reviews.reduce((acc, curr) => acc + curr.rating, 0)`. -/
def ratingSum (rs : List Review) : ℚ :=
  (rs.map (·.rating)).sum

/-- Arithmetic mean of the ratings, 0 when there are none (the shape of the
recompute in `deleteReview`: `reviews.length ? sum / length : 0`). -/
def meanRating (rs : List Review) : ℚ :=
  if rs.length = 0 then 0 else ratingSum rs / rs.length

/-- `Review.findById(id)` / `Review.findOne({ _id: id })`: first document
with the given `_id`. -/
def findReview (rs : List Review) (rid : Nat) : Option Review :=
  rs.find? (fun r => r.rid == rid)

/-- `Movie.findById(id)`: first movie with the given `_id`. -/
def findMovie (ms : List Movie) (mid : Nat) : Option Movie :=
  ms.find? (fun m => m.mid == mid)

/-- `Movie.findByIdAndUpdate(id, patch)`: patch the first movie with the
given `_id`; no-op when absent. -/
def updateMovieById : List Movie → Nat → (Movie → Movie) → List Movie
  | [], _, _ => []
  | m :: rest, mid, f =>
    if m.mid = mid then f m :: rest else m :: updateMovieById rest mid f

/-- `Review.findOneAndUpdate({ _id: rid }, { rating, comment, updatedAt })`:
rewrite the first review with the given `_id` (query updates run no
validators, so the new rating is stored as supplied). -/
def setReviewFirst : List Review → Nat → ℚ → String → List Review
  | [], _, _, _ => []
  | r :: rest, rid, q, c =>
    if r.rid = rid then { r with rating := q, comment := c } :: rest
    else r :: setReviewFirst rest rid q c

/-- `Review.findOneAndUpdate({ _id: rid, user: uid }, ...)` in the
`src/controllers/review.controller.js` handler: rewrite the first review
matching both the id and the authoring user. -/
def setReviewFirstOwned : List Review → Nat → Nat → ℚ → String → List Review
  | [], _, _, _, _ => []
  | r :: rest, rid, uid, q, c =>
    if r.rid = rid ∧ r.user = uid then { r with rating := q, comment := c } :: rest
    else r :: setReviewFirstOwned rest rid uid q c

/-- `Review.deleteOne({ _id: rid })`: drop the first review with the id. -/
def deleteReviewFirst : List Review → Nat → List Review
  | [], _ => []
  | r :: rest, rid => if r.rid = rid then rest else r :: deleteReviewFirst rest rid

/-- Schema validation run by `save` / `create` on the review model:
`rating` required with `min: 1, max: 5` (no integer validator), `comment`
required, length 1 to 1000 (the schema's whitespace-trimming setter is
not modelled; it is irrelevant to the verified claims). -/
def reviewDocValid (q : ℚ) (comment : String) : Prop :=
  1 ≤ q ∧ q ≤ 5 ∧ 1 ≤ comment.length ∧ comment.length ≤ 1000

instance (q : ℚ) (c : String) : Decidable (reviewDocValid q c) := by
  unfold reviewDocValid; infer_instance

/-- `createReview` of the unnamed review controller (src/unnamed/part_006,
lines 15-42): build the review and `save()` it (schema validation, then
the unique `{user, movie}` index), then recompute the movie's
`averageRating` and `totalRatings` from all reviews of that movie and
`findByIdAndUpdate` the movie.  Any failure is reported as a 400. -/
def createReview (db : DB) (userId movieId : Nat) (q : ℚ) (comment : String)
    (newRid : Nat) : ApiResult × DB :=
  if ¬ reviewDocValid q comment then
    (.badRequest "Review validation failed", db)
  else if db.reviews.any (fun r => r.user == userId && r.movie == movieId) then
    (.badRequest "E11000 duplicate key error", db)
  else
    let rs := db.reviews ++ [⟨newRid, userId, movieId, q, comment⟩]
    let revs := reviewsFor rs movieId
    let avg := ratingSum revs / (revs.length : ℚ)
    let ms := updateMovieById db.movies movieId
      (fun m => { m with averageRating := avg, totalRatings := revs.length })
    (.created newRid, ⟨rs, ms⟩)

/-- `updateReview` of the unnamed review controller (src/unnamed/part_006,
lines 109-148): 404 when the review is absent, 403 unless the principal
is the author or an admin, otherwise store the new rating and comment
(no validators on `findOneAndUpdate`), recompute the mean over all
reviews of the movie and persist only `averageRating`. -/
def updateReview (db : DB) (p : Principal) (reviewId : Nat) (q : ℚ)
    (comment : String) : ApiResult × DB :=
  match findReview db.reviews reviewId with
  | none => (.notFound "Review not found", db)
  | some review =>
    if ¬ (review.user = p.pid ∨ p.role = .admin) then
      (.forbidden "Unauthorized to update review", db)
    else
      let rs := setReviewFirst db.reviews reviewId q comment
      let revs := reviewsFor rs review.movie
      let avg := ratingSum revs / (revs.length : ℚ)
      let ms := updateMovieById db.movies review.movie
        (fun m => { m with averageRating := avg })
      (.ok, ⟨rs, ms⟩)

/-- `deleteReview` of the unnamed review controller (src/unnamed/part_006,
lines 159-189): 404 when absent, 403 unless author or admin, otherwise
delete the review and recompute `averageRating`
(`reviews.length ? sum / length : 0`) and `totalRatings`. -/
def deleteReview (db : DB) (p : Principal) (reviewId : Nat) : ApiResult × DB :=
  match findReview db.reviews reviewId with
  | none => (.notFound "Review not found", db)
  | some review =>
    if ¬ (review.user = p.pid ∨ p.role = .admin) then
      (.forbidden "Unauthorized to delete review", db)
    else
      let rs := deleteReviewFirst db.reviews reviewId
      let revs := reviewsFor rs review.movie
      let avg := if revs.length = 0 then 0 else ratingSum revs / (revs.length : ℚ)
      let ms := updateMovieById db.movies review.movie
        (fun m => { m with averageRating := avg, totalRatings := revs.length })
      (.ok, ⟨rs, ms⟩)

/-- `createReview` of `src/controllers/review.controller.js` (lines 4-39):
explicit duplicate pre-check (`findOne({user, movie})` then 400), then
`Review.create` (schema validation), then `Movie.findById`; when the
movie is absent the handler throws on the field assignment and answers
400 with the review already stored; otherwise it recomputes and saves
both derived fields.  The request's review text is the stored comment. -/
def srcCreateReview (db : DB) (userId movieId : Nat) (q : ℚ) (text : String)
    (newRid : Nat) : ApiResult × DB :=
  if db.reviews.any (fun r => r.user == userId && r.movie == movieId) then
    (.badRequest "You have already reviewed this movie", db)
  else if ¬ reviewDocValid q text then
    (.badRequest "Review validation failed", db)
  else
    let rs := db.reviews ++ [⟨newRid, userId, movieId, q, text⟩]
    match findMovie db.movies movieId with
    | none => (.badRequest "Cannot set properties of null", ⟨rs, db.movies⟩)
    | some _ =>
      let revs := reviewsFor rs movieId
      let avg := ratingSum revs / (revs.length : ℚ)
      let ms := updateMovieById db.movies movieId
        (fun m => { m with averageRating := avg, totalRatings := revs.length })
      (.created newRid, ⟨rs, ms⟩)

/-- `updateReview` of `src/controllers/review.controller.js` (lines 75-100):
one `findOneAndUpdate({ _id, user: req.user._id })`; 404 when no review
matches both; on success the review is rewritten and the movie record is
never touched - no rating recompute happens on this path. -/
def srcUpdateReview (db : DB) (p : Principal) (reviewId : Nat) (q : ℚ)
    (text : String) : ApiResult × DB :=
  if db.reviews.any (fun r => r.rid == reviewId && r.user == p.pid) then
    (.ok, ⟨setReviewFirstOwned db.reviews reviewId p.pid q text, db.movies⟩)
  else
    (.notFound "Review not found or unauthorized", db)

/-- The `isAdmin` middleware (`src/middleware/auth.middleware.js`, lines
53-58): 403 `Admin access required` unless the principal's role is
`admin`. -/
def isAdminGate (p : Principal) : Option ApiResult :=
  if p.role ≠ .admin then some (.forbidden "Admin access required") else none

/-- `PUT /api/reviews/:id` of the unnamed review routes
(src/unnamed/part_012: `router.put('/:id', authenticate, isAdmin,
reviewController.updateReview)`): the `isAdmin` middleware runs before
the handler. -/
def routePutReview (db : DB) (p : Principal) (reviewId : Nat) (q : ℚ)
    (comment : String) : ApiResult × DB :=
  match isAdminGate p with
  | some resp => (resp, db)
  | none => updateReview db p reviewId q comment

/-- `DELETE /api/reviews/:id` of the unnamed review routes
(src/unnamed/part_012): `authenticate, isAdmin` then `deleteReview`. -/
def routeDeleteReview (db : DB) (p : Principal) (reviewId : Nat) : ApiResult × DB :=
  match isAdminGate p with
  | some resp => (resp, db)
  | none => deleteReview db p reviewId

/-- The Mongo query built by `getRecommendations`
(`src/controllers/recommendation.controller.js`, lines 11-36), applied to
one movie document: `$or` over genre / cast-actor-name / crew-name
membership, `_id: { $nin: user.watchedMovies }`, and the two
restrictions that are spread in only when the preference list is
non-empty. -/
def recMatch (u : User) (m : Movie) : Bool :=
  (m.genre.any (fun g => u.preferences.favoriteGenres.contains g)
      || m.cast.any (fun c => u.preferences.favoriteActors.contains c.actorName)
      || m.crew.any (fun c => u.preferences.favoriteDirectors.contains c.name))
    && !(u.watchedMovies.contains m.mid)
    && (u.preferences.contentRating.isEmpty
        || u.preferences.contentRating.contains m.ageRating)
    && (u.preferences.languages.isEmpty
        || m.languages.any (fun l => u.preferences.languages.contains l))

/-- `getRecommendations`: `Movie.find(query).limit(10)` over the movie
collection for the fetched user. -/
def getRecommendations (movies : List Movie) (u : User) : List Movie :=
  (movies.filter (recMatch u)).take 10

/-- The movie ids drawn from a user's reviews - the exclusion set named by
the specification ("movies the user has already rated"). -/
def ratedMovieIds (rs : List Review) (uid : Nat) : List Nat :=
  (rs.filter (fun r => r.user == uid)).map (·.movie)

/-- `addToWishlist` of the unnamed profile controller (src/unnamed/part_003,
lines 68-88): push the movie id only when `wishlist.includes` is false. -/
def addToWishlist (w : List Nat) (m : Nat) : List Nat :=
  if w.contains m then w else w ++ [m]

/-- `removeFromWishlist` of the unnamed profile controller
(src/unnamed/part_003, lines 90-108): unconditional
`wishlist.filter(id => id.toString() !== movieId)`. -/
def removeFromWishlist (w : List Nat) (m : Nat) : List Nat :=
  w.filter (fun i => i != m)

/-- `addToWishlist` of the profile controller bundled with
`src/controllers/recommendation.controller.js` (lines 236-260): 400
`Movie is already in wishlist` when present, otherwise push. -/
def profileAddToWishlist (w : List Nat) (m : Nat) : ApiResult × List Nat :=
  if w.contains m then (.badRequest "Movie is already in wishlist", w)
  else (.ok, w ++ [m])

/-- `removeFromWishlist` of the same profile controller (lines 262-292): 400
`Movie is not in wishlist` when absent, otherwise filter it out. -/
def profileRemoveFromWishlist (w : List Nat) (m : Nat) : ApiResult × List Nat :=
  if ¬ w.contains m then (.badRequest "Movie is not in wishlist", w)
  else (.ok, w.filter (fun i => i != m))

/-- Follower-set transformation of `followList` in
`src/controllers/list.controller.js` (lines 138-157): `pull` the
principal when `followers.includes` it, otherwise `push`. -/
def followList (followers : List Nat) (uid : Nat) : List Nat :=
  if followers.contains uid then followers.filter (fun i => i != uid)
  else followers ++ [uid]

/-- Follower-set transformation of the second `followList` in the same file
(lines 298-323): push only when absent; already-a-follower is left as is. -/
def srcFollowList (followers : List Nat) (uid : Nat) : List Nat :=
  if followers.contains uid then followers else followers ++ [uid]

/-- A review write operation, as dispatched to the unnamed review
controller (src/unnamed/part_006). -/
inductive ReviewOp where
  | create (userId movieId : Nat) (q : ℚ) (comment : String) (newRid : Nat)
  | update (p : Principal) (reviewId : Nat) (q : ℚ) (comment : String)
  | delete (p : Principal) (reviewId : Nat)

/-- Database effect of one review operation. -/
def applyOp (db : DB) : ReviewOp → DB
  | .create u m q c rid => (createReview db u m q c rid).2
  | .update p rid q c => (updateReview db p rid q c).2
  | .delete p rid => (deleteReview db p rid).2

/-- Database effect of a sequence of review operations. -/
def applyOps (db : DB) (ops : List ReviewOp) : DB :=
  ops.foldl applyOp db

/-- The specification invariant: every movie reachable by id carries the
mean (0 when empty) and the count of the ratings of the reviews
currently referencing it. -/
def ratingInvariant (db : DB) : Prop :=
  ∀ i m0, findMovie db.movies i = some m0 →
    m0.averageRating = meanRating (reviewsFor db.reviews i) ∧
    m0.totalRatings = (reviewsFor db.reviews i).length

end MovieAP

namespace MovieAP

/-- Filtering out an id that is not in the list leaves the list unchanged. -/
lemma filter_bne_eq_self {w : List Nat} {m : Nat} (h : m ∉ w) :
    w.filter (fun i => i != m) = w :=
  List.filter_eq_self.mpr (fun a ha => by
    simp only [bne_iff_ne, ne_eq, decide_eq_true_eq]
    exact fun e => h (e ▸ ha))

/-- `includes` answers true exactly on members. -/
lemma contains_true_of_mem {w : List Nat} {m : Nat} (h : m ∈ w) :
    w.contains m = true := by simp [h]

/-- `includes` answers false exactly on non-members. -/
lemma contains_false_of_not_mem {w : List Nat} {m : Nat} (h : m ∉ w) :
    w.contains m = false := by simp [h]

/-- Adding a present movie is a state no-op. -/
lemma addToWishlist_mem {w : List Nat} {m : Nat} (h : m ∈ w) :
    addToWishlist w m = w := by
  unfold addToWishlist; rw [if_pos (contains_true_of_mem h)]

/-- Adding an absent movie appends it. -/
lemma addToWishlist_not_mem {w : List Nat} {m : Nat} (h : m ∉ w) :
    addToWishlist w m = w ++ [m] := by
  unfold addToWishlist
  rw [if_neg (by rw [contains_false_of_not_mem h]; exact Bool.false_ne_true)]

/-- A concrete database used to instantiate hypothesis-bearing theorems:
one review by user 7 on movie 42, and movie 42 carrying the matching
derived fields. -/
def wdb : DB :=
  ⟨[⟨10, 7, 42, 5, "great"⟩],
   [⟨42, ["action"], [], [], "PG", [], 5, 1⟩]⟩

/-- C5: on the unnamed review routes, every PUT or DELETE for a principal
whose role is not admin is answered 403 `Admin access required` by the
`isAdmin` middleware, with the database untouched - the handler (and its
ownership check) never runs. -/
theorem review_routes_admin_gate (db : DB) (p : Principal) (reviewId : Nat)
    (q : ℚ) (comment : String) (h : p.role ≠ Role.admin) :
    routePutReview db p reviewId q comment
        = (.forbidden "Admin access required", db) ∧
    routeDeleteReview db p reviewId = (.forbidden "Admin access required", db) := by
  constructor <;> simp [routePutReview, routeDeleteReview, isAdminGate, h]

/-- C5 witness: user 7 authored review 10 in `wdb`, yet with role `user`
both mutations of that very review stop at the admin gate. -/
theorem review_routes_admin_gate_witness :
    routePutReview wdb ⟨7, Role.user⟩ 10 2 "worse"
        = (.forbidden "Admin access required", wdb) ∧
    routeDeleteReview wdb ⟨7, Role.user⟩ 10
        = (.forbidden "Admin access required", wdb) :=
  review_routes_admin_gate wdb ⟨7, Role.user⟩ 10 2 "worse" (by decide)

/-- C8: wishlist membership is idempotent at the state level, in both
profile controllers: adding a present movie leaves the wishlist as is
(and hence still containing it exactly once when it did), adding twice
equals adding once, and removing an absent movie leaves the wishlist
unchanged. -/
theorem wishlist_idempotent (w : List Nat) (m : Nat) :
    (m ∈ w → addToWishlist w m = w) ∧
    addToWishlist (addToWishlist w m) m = addToWishlist w m ∧
    (w.count m ≤ 1 → (addToWishlist w m).count m = 1) ∧
    (m ∉ w → removeFromWishlist w m = w) ∧
    (m ∈ w → profileAddToWishlist w m = (.badRequest "Movie is already in wishlist", w)) ∧
    (profileAddToWishlist (profileAddToWishlist w m).2 m).2
        = (profileAddToWishlist w m).2 ∧
    (m ∉ w → profileRemoveFromWishlist w m = (.badRequest "Movie is not in wishlist", w)) := by
  by_cases hm : m ∈ w
  · have h1 : 1 ≤ w.count m := List.count_pos_iff.mpr hm
    have hadd : addToWishlist w m = w := addToWishlist_mem hm
    have hpro : profileAddToWishlist w m = (.badRequest "Movie is already in wishlist", w) := by
      unfold profileAddToWishlist; rw [if_pos (contains_true_of_mem hm)]
    refine ⟨fun _ => hadd, ?_, fun hle => ?_, fun hab => absurd hm hab,
      fun _ => hpro, ?_, fun hab => absurd hm hab⟩
    · rw [hadd, hadd]
    · rw [hadd]; omega
    · rw [hpro, hpro]
  · have hadd : addToWishlist w m = w ++ [m] := addToWishlist_not_mem hm
    have hpro : profileAddToWishlist w m = (.ok, w ++ [m]) := by
      unfold profileAddToWishlist
      rw [if_neg (by rw [contains_false_of_not_mem hm]; exact Bool.false_ne_true)]
    have hmem : m ∈ w ++ [m] := List.mem_append.mpr (Or.inr (by simp))
    refine ⟨fun hab => absurd hab hm, ?_, fun _ => ?_, fun _ => ?_,
      fun hab => absurd hab hm, ?_, fun _ => ?_⟩
    · rw [hadd, addToWishlist_mem hmem]
    · rw [hadd, List.count_append, List.count_eq_zero.mpr hm]
      simp
    · unfold removeFromWishlist; exact filter_bne_eq_self hm
    · rw [hpro]
      show (profileAddToWishlist (w ++ [m]) m).2 = w ++ [m]
      unfold profileAddToWishlist
      rw [if_pos (contains_true_of_mem hmem)]
    · unfold profileRemoveFromWishlist
      rw [if_pos (by rw [contains_false_of_not_mem hm]; exact Bool.false_ne_true)]

/-- C8 witness: instantiation of the wishlist idempotence at a concrete
wishlist, in the present and in the absent case. -/
theorem wishlist_idempotent_witness :
    addToWishlist [3, 5] 5 = [3, 5] ∧
    removeFromWishlist [3, 5] 9 = [3, 5] ∧
    ([3, 5] : List Nat).count 5 ≤ 1 ∧ (addToWishlist [3, 5] 5).count 5 = 1 :=
  ⟨(wishlist_idempotent [3, 5] 5).1 (by decide),
   (wishlist_idempotent [3, 5] 9).2.2.2.1 (by decide),
   by decide,
   (wishlist_idempotent [3, 5] 5).2.2.1 (by decide)⟩

/-- C9 counterexample: for the second `followList`
(`src/controllers/list.controller.js`, lines 298-323) the operation is
not a toggle - applied twice to a non-follower it leaves them a
follower, so the follower set does not return to its original state. -/
theorem followList_not_a_toggle :
    srcFollowList (srcFollowList ([] : List Nat) 1) 1 = [1] ∧
    ([1] : List Nat) ≠ [] := by
  constructor <;> decide

/-- C9 (amended): the first `followList` (lines 138-157) is a true toggle -
applying it twice restores the follower set (as a set of members) - while
the second `followList` (lines 298-323) only ever adds: the principal is
a follower after it runs, and running it twice equals running it once. -/
theorem followList_toggle (f : List Nat) (u : Nat) :
    (∀ x, x ∈ followList (followList f u) u ↔ x ∈ f) ∧
    u ∈ srcFollowList f u ∧
    srcFollowList (srcFollowList f u) u = srcFollowList f u := by
  by_cases hu : u ∈ f
  · have hsrc : srcFollowList f u = f := by
      unfold srcFollowList; rw [if_pos (contains_true_of_mem hu)]
    have hnotin : u ∉ f.filter (fun i => i != u) := by
      intro hx
      have := (List.mem_filter.mp hx).2
      simp at this
    have h1 : followList f u = f.filter (fun i => i != u) := by
      unfold followList; rw [if_pos (contains_true_of_mem hu)]
    have h2 : followList (f.filter (fun i => i != u)) u
        = f.filter (fun i => i != u) ++ [u] := by
      unfold followList
      rw [if_neg (by rw [contains_false_of_not_mem hnotin]; exact Bool.false_ne_true)]
    refine ⟨fun x => ?_, ?_, ?_⟩
    · rw [h1, h2]
      constructor
      · intro hx
        rcases List.mem_append.mp hx with hx | hx
        · exact (List.mem_filter.mp hx).1
        · simp at hx; exact hx ▸ hu
      · intro hx
        by_cases hxu : x = u
        · exact List.mem_append.mpr (Or.inr (by simp [hxu]))
        · exact List.mem_append.mpr (Or.inl (List.mem_filter.mpr ⟨hx, by simp [hxu]⟩))
    · rw [hsrc]; exact hu
    · rw [hsrc, hsrc]
  · have hmem : u ∈ f ++ [u] := List.mem_append.mpr (Or.inr (by simp))
    have hsrc : srcFollowList f u = f ++ [u] := by
      unfold srcFollowList
      rw [if_neg (by rw [contains_false_of_not_mem hu]; exact Bool.false_ne_true)]
    have h1 : followList f u = f ++ [u] := by
      unfold followList
      rw [if_neg (by rw [contains_false_of_not_mem hu]; exact Bool.false_ne_true)]
    have h2 : followList (f ++ [u]) u = (f ++ [u]).filter (fun i => i != u) := by
      unfold followList; rw [if_pos (contains_true_of_mem hmem)]
    refine ⟨fun x => ?_, ?_, ?_⟩
    · rw [h1, h2, List.filter_append, filter_bne_eq_self hu]
      simp
    · rw [hsrc]; exact hmem
    · rw [hsrc]
      show srcFollowList (f ++ [u]) u = f ++ [u]
      unfold srcFollowList; rw [if_pos (contains_true_of_mem hmem)]

/-- C9 (amended) witness: instantiation of the toggle behaviour at a
concrete follower list. -/
theorem followList_toggle_witness :
    (5 ∈ followList (followList [5, 9] 7) 7 ↔ 5 ∈ ([5, 9] : List Nat)) ∧
    7 ∈ srcFollowList [5, 9] 7 ∧
    srcFollowList (srcFollowList [5, 9] 7) 7 = srcFollowList [5, 9] 7 :=
  ⟨(followList_toggle [5, 9] 7).1 5,
   (followList_toggle [5, 9] 7).2.1,
   (followList_toggle [5, 9] 7).2.2⟩

end MovieAP

namespace MovieAP

/-- C3: when a review by the user for the movie already exists, a second
create attempt is answered 400 and the database (the existing review and
the movie's derived fields included) is unchanged - in both review
controllers: the unnamed one through the unique `{user, movie}` index
failing the `save`, the `src/controllers` one through its explicit
`findOne` pre-check. -/
theorem duplicate_review_rejected (db : DB) (u m : Nat) (q : ℚ) (c : String)
    (newRid : Nat) (hdup : ∃ r ∈ db.reviews, r.user = u ∧ r.movie = m) :
    (createReview db u m q c newRid).1.status = 400 ∧
    (createReview db u m q c newRid).2 = db ∧
    (srcCreateReview db u m q c newRid).1.status = 400 ∧
    (srcCreateReview db u m q c newRid).2 = db := by
  have hany : db.reviews.any (fun r => r.user == u && r.movie == m) = true := by
    rw [List.any_eq_true]
    obtain ⟨r, hr, h1, h2⟩ := hdup
    exact ⟨r, hr, by simp [h1, h2]⟩
  have hc1 : (createReview db u m q c newRid).1.status = 400 ∧
      (createReview db u m q c newRid).2 = db := by
    unfold createReview
    by_cases hv : reviewDocValid q c
    · rw [if_neg (not_not_intro hv), if_pos hany]; exact ⟨rfl, rfl⟩
    · rw [if_pos hv]; exact ⟨rfl, rfl⟩
  have hc2 : (srcCreateReview db u m q c newRid).1.status = 400 ∧
      (srcCreateReview db u m q c newRid).2 = db := by
    unfold srcCreateReview
    rw [if_pos hany]; exact ⟨rfl, rfl⟩
  exact ⟨hc1.1, hc1.2, hc2.1, hc2.2⟩

/-- C3 witness: user 7 already reviewed movie 42 in `wdb`; the second
attempt bounces off both controllers with a 400 and no state change. -/
theorem duplicate_review_rejected_witness :
    (createReview wdb 7 42 4 "again" 11).1.status = 400 ∧
    (createReview wdb 7 42 4 "again" 11).2 = wdb ∧
    (srcCreateReview wdb 7 42 4 "again" 11).1.status = 400 ∧
    (srcCreateReview wdb 7 42 4 "again" 11).2 = wdb :=
  duplicate_review_rejected wdb 7 42 4 "again" 11
    ⟨⟨10, 7, 42, 5, "great"⟩, by decide, rfl, rfl⟩

/-- C4: in the unnamed review controller, an update or delete succeeds only
for the review's author or an admin, and any other principal receives
403 with the database unchanged. -/
theorem review_mutation_owner_or_admin (db : DB) (p : Principal)
    (reviewId : Nat) (q : ℚ) (c : String) :
    ((updateReview db p reviewId q c).1.status = 200 →
        ∃ r0, findReview db.reviews reviewId = some r0 ∧
          (r0.user = p.pid ∨ p.role = Role.admin)) ∧
    ((deleteReview db p reviewId).1.status = 200 →
        ∃ r0, findReview db.reviews reviewId = some r0 ∧
          (r0.user = p.pid ∨ p.role = Role.admin)) ∧
    (∀ r0, findReview db.reviews reviewId = some r0 →
        ¬ (r0.user = p.pid ∨ p.role = Role.admin) →
        updateReview db p reviewId q c
            = (.forbidden "Unauthorized to update review", db) ∧
        deleteReview db p reviewId
            = (.forbidden "Unauthorized to delete review", db)) := by
  cases hf : findReview db.reviews reviewId with
  | none =>
    refine ⟨fun h => ?_, fun h => ?_, fun r0 hr0 => ?_⟩
    · simp [updateReview, hf, ApiResult.status] at h
    · simp [deleteReview, hf, ApiResult.status] at h
    · exact nomatch hr0
  | some r0 =>
    by_cases hauth : r0.user = p.pid ∨ p.role = Role.admin
    · refine ⟨fun _ => ⟨r0, rfl, hauth⟩, fun _ => ⟨r0, rfl, hauth⟩, fun r1 hr1 hn => ?_⟩
      injection hr1 with hr1
      exact absurd (hr1 ▸ hauth) hn
    · refine ⟨fun h => ?_, fun h => ?_, fun r1 hr1 hn => ?_⟩
      · simp [updateReview, hf, hauth, ApiResult.status] at h
      · simp [deleteReview, hf, hauth, ApiResult.status] at h
      · injection hr1 with hr1
        subst hr1
        constructor
        · simp [updateReview, hf, hn]
        · simp [deleteReview, hf, hn]

/-- C4 witness: user 9 (role `user`) is not the author of review 10 in
`wdb`; both mutations are answered 403 with the database unchanged. -/
theorem review_mutation_owner_or_admin_witness :
    updateReview wdb ⟨9, Role.user⟩ 10 1 "bad"
        = (.forbidden "Unauthorized to update review", wdb) ∧
    deleteReview wdb ⟨9, Role.user⟩ 10
        = (.forbidden "Unauthorized to delete review", wdb) :=
  (review_mutation_owner_or_admin wdb ⟨9, Role.user⟩ 10 1 "bad").2.2
    ⟨10, 7, 42, 5, "great"⟩ (by decide) (by decide)

end MovieAP

namespace MovieAP

/-- C10 counterexample: the review schema constrains the rating's range
(`min: 1, max: 5`) but not its integrality, so `createReview` accepts
the non-integer rating 3/2 and stores it. -/
theorem create_accepts_noninteger_rating :
    (createReview wdb 1 42 (3 / 2 : ℚ) "decent" 11).1 = .created 11 ∧
    (∃ r ∈ (createReview wdb 1 42 (3 / 2 : ℚ) "decent" 11).2.reviews,
        r.rating = 3 / 2) ∧
    ¬ ∃ n : ℤ, (3 / 2 : ℚ) = (n : ℚ) := by
  have hv : reviewDocValid (3 / 2 : ℚ) "decent" :=
    ⟨by norm_num, by norm_num, by decide, by decide⟩
  have hdup : ¬ (wdb.reviews.any (fun r => r.user == 1 && r.movie == 42) = true) := by
    decide
  unfold createReview
  rw [if_neg (not_not_intro hv), if_neg hdup]
  refine ⟨rfl, ⟨⟨11, 1, 42, 3 / 2, "decent"⟩, ?_, rfl⟩, ?_⟩
  · show (⟨11, 1, 42, 3 / 2, "decent"⟩ : Review)
        ∈ wdb.reviews ++ [⟨11, 1, 42, 3 / 2, "decent"⟩]
    exact List.mem_append_right _ (List.mem_singleton_self _)
  · rintro ⟨n, hn⟩
    have hden := Rat.den_intCast n
    rw [← hn] at hden
    norm_num [Rat.den] at hden

/-- C10 (amended): a review accepted by `createReview` has a rating between
1 and 5 inclusive (not necessarily an integer) and a rating outside that
range is rejected with a 400; `updateReview` applies no rating
validation at all - the author's update succeeds whatever the supplied
rating. -/
theorem create_rating_range (db : DB) (u m : Nat) (q : ℚ) (c : String)
    (newRid : Nat) :
    ((createReview db u m q c newRid).1 = .created newRid → 1 ≤ q ∧ q ≤ 5) ∧
    (¬ (1 ≤ q ∧ q ≤ 5) →
        createReview db u m q c newRid = (.badRequest "Review validation failed", db)) ∧
    (∀ reviewId r0, findReview db.reviews reviewId = some r0 → r0.user = u →
        (updateReview db ⟨u, Role.user⟩ reviewId q c).1 = .ok) := by
  refine ⟨?_, fun hq => ?_, fun reviewId r0 hr0 hru => ?_⟩
  · intro h
    by_cases hv : reviewDocValid q c
    · exact ⟨hv.1, hv.2.1⟩
    · unfold createReview at h
      rw [if_pos hv] at h
      exact nomatch h
  · have hv : ¬ reviewDocValid q c := fun hv => hq ⟨hv.1, hv.2.1⟩
    unfold createReview
    rw [if_pos hv]
  · simp [updateReview, hr0, hru]

/-- C10 (amended) witness: a rating of 6 is rejected by `createReview` with
no state change, while the author's `updateReview` to the out-of-range
rating 7 succeeds. -/
theorem create_rating_range_witness :
    createReview wdb 1 42 6 "way too good" 11
        = (.badRequest "Review validation failed", wdb) ∧
    (updateReview wdb ⟨7, Role.user⟩ 10 7 "oops").1 = .ok :=
  ⟨(create_rating_range wdb 1 42 6 "way too good" 11).2.1 (by decide),
   (create_rating_range wdb 7 42 7 "oops" 11).2.2 10 ⟨10, 7, 42, 5, "great"⟩
     (by decide) rfl⟩

/-- C2: in `src/controllers/review.controller.js` the `updateReview`
handler stores the changed rating but never recomputes the movie's
aggregate: after user 7 changes their only review of movie 42 from 5 to
3, the movie still carries `averageRating` 5 while the mean of the
current reviews is 3. -/
theorem update_leaves_average_stale :
    (srcUpdateReview wdb ⟨7, Role.user⟩ 10 3 "changed").1 = .ok ∧
    (findMovie (srcUpdateReview wdb ⟨7, Role.user⟩ 10 3 "changed").2.movies 42).map
        Movie.averageRating = some 5 ∧
    meanRating (reviewsFor (srcUpdateReview wdb ⟨7, Role.user⟩ 10 3 "changed").2.reviews 42)
        = 3 ∧
    (5 : ℚ) ≠ 3 := by
  have hrev : (srcUpdateReview wdb ⟨7, Role.user⟩ 10 3 "changed").2.reviews
      = [⟨10, 7, 42, 3, "changed"⟩] := by decide
  refine ⟨by decide, by decide, ?_, by decide⟩
  rw [hrev]
  norm_num [meanRating, reviewsFor, ratingSum]

/-- The user of the C6 scenario: favourite genre `action`, no other taste
or restriction entries, nothing watched, one prior review (user id 7,
kept in `wdb`). -/
def recUser7 : User := ⟨7, ⟨["action"], [], [], [], []⟩, [], []⟩

/-- The movie of the C6 scenario: tagged `action`. -/
def recMovieX : Movie := ⟨42, ["action"], [], [], "PG", ["English"], 5, 1⟩

/-- C6 counterexample: user 7 has rated movie 42 (it is among the movie ids
drawn from their reviews), the user's `watchedMovies` list is empty, and
`getRecommendations` still returns movie 42 - the handler excludes
`watchedMovies`, not the rated movies. -/
theorem recommendations_include_rated_movie :
    ratedMovieIds wdb.reviews 7 = [42] ∧
    42 ∈ (getRecommendations [recMovieX] recUser7).map Movie.mid := by
  refine ⟨by decide, by decide⟩

/-- C6 (amended): `getRecommendations` returns at most 10 movies, each
drawn from the catalogue, matching the preference query, and not in the
user's `watchedMovies` list (rated-but-unwatched movies are not
excluded); when at most 10 movies match, every matching movie is
returned. -/
theorem recommendations_exclude_watched (movies : List Movie) (u : User) :
    (getRecommendations movies u).length ≤ 10 ∧
    (∀ m, m ∈ getRecommendations movies u →
        m ∈ movies ∧ recMatch u m = true ∧ m.mid ∉ u.watchedMovies) ∧
    ((movies.filter (recMatch u)).length ≤ 10 →
        ∀ m, m ∈ movies → recMatch u m = true → m ∈ getRecommendations movies u) := by
  refine ⟨?_, fun m hm => ?_, fun hlen m hm hmatch => ?_⟩
  · unfold getRecommendations
    rw [List.length_take]
    exact min_le_left 10 _
  · have hm2 : m ∈ movies.filter (recMatch u) := List.mem_of_mem_take hm
    have hmem := (List.mem_filter.mp hm2).1
    have hmatch := (List.mem_filter.mp hm2).2
    refine ⟨hmem, hmatch, ?_⟩
    unfold recMatch at hmatch
    simp only [Bool.and_eq_true] at hmatch
    have hb := hmatch.1.1.2
    simp only [Bool.not_eq_true'] at hb
    intro hw
    rw [contains_true_of_mem hw] at hb
    exact nomatch hb
  · unfold getRecommendations
    rw [List.take_of_length_le hlen]
    exact List.mem_filter.mpr ⟨hm, hmatch⟩

/-- C6 (amended) witness: the rated-but-unwatched action movie 42 is
returned for user 7. -/
theorem recommendations_exclude_watched_witness :
    recMovieX ∈ getRecommendations [recMovieX] recUser7 :=
  (recommendations_exclude_watched [recMovieX] recUser7).2.2 (by decide)
    recMovieX (by decide) (by decide)

/-- C7: a user whose five preference lists are all empty receives the empty
recommendation list - the `$or` of three `$in: []` clauses matches no
movie and there is no fallback to the whole catalogue. -/
theorem empty_profile_no_recommendations (movies : List Movie) (u : User)
    (h1 : u.preferences.favoriteGenres = [])
    (h2 : u.preferences.favoriteActors = [])
    (h3 : u.preferences.favoriteDirectors = [])
    (h4 : u.preferences.contentRating = [])
    (h5 : u.preferences.languages = []) :
    getRecommendations movies u = [] := by
  unfold getRecommendations
  have hnil : movies.filter (recMatch u) = [] := by
    rw [List.filter_eq_nil_iff]
    intro m _
    unfold recMatch
    rw [h1, h2, h3]
    simp
  rw [hnil]
  rfl

/-- A user with an entirely empty preference profile. -/
def emptyPrefUser : User := ⟨2, ⟨[], [], [], [], []⟩, [], []⟩

/-- C7 witness: the empty-profile user gets no recommendations even from a
non-empty catalogue. -/
theorem empty_profile_no_recommendations_witness :
    getRecommendations [recMovieX] emptyPrefUser = [] :=
  empty_profile_no_recommendations [recMovieX] emptyPrefUser rfl rfl rfl rfl rfl

end MovieAP

namespace MovieAP

/-- `findByIdAndUpdate` with an id-preserving patch rewrites exactly the
document `findById` returns. -/
lemma findMovie_updateMovieById_self (ms : List Movie) (mid : Nat)
    (f : Movie → Movie) (hf : ∀ m, (f m).mid = m.mid) :
    findMovie (updateMovieById ms mid f) mid = (findMovie ms mid).map f := by
  induction ms with
  | nil => rfl
  | cons m rest ih =>
    by_cases h : m.mid = mid
    · rw [updateMovieById, if_pos h]
      unfold findMovie
      rw [List.find?_cons_of_pos _ (by simp [hf m, h]),
        List.find?_cons_of_pos _ (by simp [h])]
      rfl
    · rw [updateMovieById, if_neg h]
      unfold findMovie
      rw [List.find?_cons_of_neg _ (by simp [h]), List.find?_cons_of_neg _ (by simp [h])]
      exact ih

/-- `findByIdAndUpdate` with an id-preserving patch leaves lookups of every
other id unchanged. -/
lemma findMovie_updateMovieById_ne (ms : List Movie) (mid i : Nat)
    (f : Movie → Movie) (hf : ∀ m, (f m).mid = m.mid) (hne : i ≠ mid) :
    findMovie (updateMovieById ms mid f) i = findMovie ms i := by
  induction ms with
  | nil => rfl
  | cons m rest ih =>
    by_cases h : m.mid = mid
    · rw [updateMovieById, if_pos h]
      unfold findMovie
      rw [List.find?_cons_of_neg _ (by simp [hf m, h]; omega),
        List.find?_cons_of_neg _ (by simp [h]; omega)]
    · rw [updateMovieById, if_neg h]
      by_cases hmi : m.mid = i
      · unfold findMovie
        rw [List.find?_cons_of_pos _ (by simp [hmi]),
          List.find?_cons_of_pos _ (by simp [hmi])]
      · unfold findMovie
        rw [List.find?_cons_of_neg _ (by simp [hmi]),
          List.find?_cons_of_neg _ (by simp [hmi])]
        exact ih

/-- Appending one review extends the movie's review set by it exactly when
it references the movie. -/
lemma reviewsFor_append (rs : List Review) (r : Review) (i : Nat) :
    reviewsFor (rs ++ [r]) i
      = reviewsFor rs i ++ (if r.movie = i then [r] else []) := by
  unfold reviewsFor
  rw [List.filter_append]
  congr 1
  by_cases h : r.movie = i
  · simp [h]
  · simp [h]

/-- Rewriting one review's rating and comment never changes how many
reviews reference any movie. -/
lemma length_reviewsFor_setReviewFirst (rs : List Review) (rid : Nat) (q : ℚ)
    (c : String) (i : Nat) :
    (reviewsFor (setReviewFirst rs rid q c) i).length = (reviewsFor rs i).length := by
  induction rs with
  | nil => rfl
  | cons r rest ih =>
    by_cases h : r.rid = rid
    · rw [setReviewFirst, if_pos h]
      unfold reviewsFor
      by_cases hm : r.movie = i
      · rw [List.filter_cons_of_pos (by simp [hm]), List.filter_cons_of_pos (by simp [hm])]
        simp
      · rw [List.filter_cons_of_neg (by simp [hm]), List.filter_cons_of_neg (by simp [hm])]
    · rw [setReviewFirst, if_neg h]
      unfold reviewsFor
      by_cases hm : r.movie = i
      · rw [List.filter_cons_of_pos (by simp [hm]), List.filter_cons_of_pos (by simp [hm])]
        simpa using ih
      · rw [List.filter_cons_of_neg (by simp [hm]), List.filter_cons_of_neg (by simp [hm])]
        exact ih

/-- Rewriting the rating of the review `findOne` returns leaves the review
sets of all other movies unchanged. -/
lemma reviewsFor_setReviewFirst_ne (rs : List Review) (rid : Nat) (q : ℚ)
    (c : String) (r0 : Review) (i : Nat) (hf : findReview rs rid = some r0)
    (hne : i ≠ r0.movie) :
    reviewsFor (setReviewFirst rs rid q c) i = reviewsFor rs i := by
  induction rs with
  | nil => exact nomatch hf
  | cons r rest ih =>
    by_cases h : r.rid = rid
    · have hr0 : r0 = r := by
        unfold findReview at hf
        rw [List.find?_cons_of_pos _ (by simp [h])] at hf
        exact (Option.some.inj hf).symm
      subst hr0
      rw [setReviewFirst, if_pos h]
      unfold reviewsFor
      rw [List.filter_cons_of_neg (by simp; omega), List.filter_cons_of_neg (by simp; omega)]
    · have hf2 : findReview rest rid = some r0 := by
        unfold findReview at hf ⊢
        rwa [List.find?_cons_of_neg _ (by simp [h])] at hf
      rw [setReviewFirst, if_neg h]
      unfold reviewsFor
      by_cases hm : r.movie = i
      · rw [List.filter_cons_of_pos (by simp [hm]), List.filter_cons_of_pos (by simp [hm])]
        have := ih hf2
        unfold reviewsFor at this
        rw [this]
      · rw [List.filter_cons_of_neg (by simp [hm]), List.filter_cons_of_neg (by simp [hm])]
        have := ih hf2
        unfold reviewsFor at this
        rw [this]

/-- Deleting the review `findOne` returns leaves the review sets of all
other movies unchanged. -/
lemma reviewsFor_deleteReviewFirst_ne (rs : List Review) (rid : Nat)
    (r0 : Review) (i : Nat) (hf : findReview rs rid = some r0)
    (hne : i ≠ r0.movie) :
    reviewsFor (deleteReviewFirst rs rid) i = reviewsFor rs i := by
  induction rs with
  | nil => exact nomatch hf
  | cons r rest ih =>
    by_cases h : r.rid = rid
    · have hr0 : r0 = r := by
        unfold findReview at hf
        rw [List.find?_cons_of_pos _ (by simp [h])] at hf
        exact (Option.some.inj hf).symm
      subst hr0
      rw [deleteReviewFirst, if_pos h]
      unfold reviewsFor
      rw [List.filter_cons_of_neg (by simp; omega)]
    · have hf2 : findReview rest rid = some r0 := by
        unfold findReview at hf ⊢
        rwa [List.find?_cons_of_neg _ (by simp [h])] at hf
      rw [deleteReviewFirst, if_neg h]
      unfold reviewsFor
      by_cases hm : r.movie = i
      · rw [List.filter_cons_of_pos (by simp [hm]), List.filter_cons_of_pos (by simp [hm])]
        have := ih hf2
        unfold reviewsFor at this
        rw [this]
      · rw [List.filter_cons_of_neg (by simp [hm]), List.filter_cons_of_neg (by simp [hm])]
        have := ih hf2
        unfold reviewsFor at this
        rw [this]

/-- The review `findOne` returns belongs to its own movie's review set. -/
lemma mem_reviewsFor_of_findReview (rs : List Review) (rid : Nat) (r0 : Review)
    (hf : findReview rs rid = some r0) : r0 ∈ reviewsFor rs r0.movie :=
  List.mem_filter.mpr ⟨List.mem_of_find?_eq_some hf, by simp⟩

end MovieAP

namespace MovieAP

/-- Unfolding of `createReview` on its success path: the stored review list. -/
lemma createReview_reviews_main (db : DB) (u m : Nat) (q : ℚ) (c : String)
    (newRid : Nat) (hv : reviewDocValid q c)
    (hdup : ¬ (db.reviews.any (fun r => r.user == u && r.movie == m) = true)) :
    (createReview db u m q c newRid).2.reviews
      = db.reviews ++ [⟨newRid, u, m, q, c⟩] := by
  unfold createReview
  rw [if_neg (not_not_intro hv), if_neg hdup]

/-- Unfolding of `createReview` on its success path: the movie update it
performs. -/
lemma createReview_movies_main (db : DB) (u m : Nat) (q : ℚ) (c : String)
    (newRid : Nat) (hv : reviewDocValid q c)
    (hdup : ¬ (db.reviews.any (fun r => r.user == u && r.movie == m) = true)) :
    (createReview db u m q c newRid).2.movies
      = updateMovieById db.movies m (fun mv =>
          { mv with
            averageRating :=
              ratingSum (reviewsFor (db.reviews ++ [⟨newRid, u, m, q, c⟩]) m)
                / ((reviewsFor (db.reviews ++ [⟨newRid, u, m, q, c⟩]) m).length : ℚ),
            totalRatings := (reviewsFor (db.reviews ++ [⟨newRid, u, m, q, c⟩]) m).length }) := by
  unfold createReview
  rw [if_neg (not_not_intro hv), if_neg hdup]

/-- `updateReview` leaves the database untouched when the review is absent. -/
lemma updateReview_db_notFound (db : DB) (p : Principal) (reviewId : Nat)
    (q : ℚ) (c : String) (hf : findReview db.reviews reviewId = none) :
    (updateReview db p reviewId q c).2 = db := by
  unfold updateReview
  split
  next => rfl
  next review heq => rw [hf] at heq; exact nomatch heq

/-- `updateReview` leaves the database untouched on the 403 path. -/
lemma updateReview_db_forbidden (db : DB) (p : Principal) (reviewId : Nat)
    (q : ℚ) (c : String) (review : Review)
    (hf : findReview db.reviews reviewId = some review)
    (hauth : ¬ (review.user = p.pid ∨ p.role = Role.admin)) :
    (updateReview db p reviewId q c).2 = db := by
  unfold updateReview
  split
  next => rfl
  next review2 heq =>
    rw [hf] at heq
    injection heq with heq
    subst heq
    rw [if_pos hauth]

/-- Unfolding of `updateReview` on its success path: the stored review list. -/
lemma updateReview_reviews_main (db : DB) (p : Principal) (reviewId : Nat)
    (q : ℚ) (c : String) (review : Review)
    (hf : findReview db.reviews reviewId = some review)
    (hauth : review.user = p.pid ∨ p.role = Role.admin) :
    (updateReview db p reviewId q c).2.reviews
      = setReviewFirst db.reviews reviewId q c := by
  unfold updateReview
  split
  next heq => rw [heq] at hf; exact nomatch hf
  next review2 heq =>
    rw [hf] at heq
    injection heq with heq
    subst heq
    rw [if_neg (not_not_intro hauth)]

/-- Unfolding of `updateReview` on its success path: the movie update it
performs (only `averageRating` is written). -/
lemma updateReview_movies_main (db : DB) (p : Principal) (reviewId : Nat)
    (q : ℚ) (c : String) (review : Review)
    (hf : findReview db.reviews reviewId = some review)
    (hauth : review.user = p.pid ∨ p.role = Role.admin) :
    (updateReview db p reviewId q c).2.movies
      = updateMovieById db.movies review.movie (fun mv =>
          { mv with
            averageRating :=
              ratingSum (reviewsFor (setReviewFirst db.reviews reviewId q c) review.movie)
                / ((reviewsFor (setReviewFirst db.reviews reviewId q c) review.movie).length : ℚ) }) := by
  unfold updateReview
  split
  next heq => rw [heq] at hf; exact nomatch hf
  next review2 heq =>
    rw [hf] at heq
    injection heq with heq
    subst heq
    rw [if_neg (not_not_intro hauth)]

/-- `deleteReview` leaves the database untouched when the review is absent. -/
lemma deleteReview_db_notFound (db : DB) (p : Principal) (reviewId : Nat)
    (hf : findReview db.reviews reviewId = none) :
    (deleteReview db p reviewId).2 = db := by
  unfold deleteReview
  split
  next => rfl
  next review heq => rw [hf] at heq; exact nomatch heq

/-- `deleteReview` leaves the database untouched on the 403 path. -/
lemma deleteReview_db_forbidden (db : DB) (p : Principal) (reviewId : Nat)
    (review : Review) (hf : findReview db.reviews reviewId = some review)
    (hauth : ¬ (review.user = p.pid ∨ p.role = Role.admin)) :
    (deleteReview db p reviewId).2 = db := by
  unfold deleteReview
  split
  next => rfl
  next review2 heq =>
    rw [hf] at heq
    injection heq with heq
    subst heq
    rw [if_pos hauth]

/-- Unfolding of `deleteReview` on its success path: the stored review list. -/
lemma deleteReview_reviews_main (db : DB) (p : Principal) (reviewId : Nat)
    (review : Review) (hf : findReview db.reviews reviewId = some review)
    (hauth : review.user = p.pid ∨ p.role = Role.admin) :
    (deleteReview db p reviewId).2.reviews = deleteReviewFirst db.reviews reviewId := by
  unfold deleteReview
  split
  next heq => rw [heq] at hf; exact nomatch hf
  next review2 heq =>
    rw [hf] at heq
    injection heq with heq
    subst heq
    rw [if_neg (not_not_intro hauth)]

/-- Unfolding of `deleteReview` on its success path: the movie update it
performs. -/
lemma deleteReview_movies_main (db : DB) (p : Principal) (reviewId : Nat)
    (review : Review) (hf : findReview db.reviews reviewId = some review)
    (hauth : review.user = p.pid ∨ p.role = Role.admin) :
    (deleteReview db p reviewId).2.movies
      = updateMovieById db.movies review.movie (fun mv =>
          { mv with
            averageRating :=
              if (reviewsFor (deleteReviewFirst db.reviews reviewId) review.movie).length = 0
              then 0
              else ratingSum (reviewsFor (deleteReviewFirst db.reviews reviewId) review.movie)
                / ((reviewsFor (deleteReviewFirst db.reviews reviewId) review.movie).length : ℚ),
            totalRatings :=
              (reviewsFor (deleteReviewFirst db.reviews reviewId) review.movie).length }) := by
  unfold deleteReview
  split
  next heq => rw [heq] at hf; exact nomatch hf
  next review2 heq =>
    rw [hf] at heq
    injection heq with heq
    subst heq
    rw [if_neg (not_not_intro hauth)]

end MovieAP

namespace MovieAP

/-- `createReview` preserves the rating invariant. -/
lemma ratingInvariant_createReview (db : DB) (u m : Nat) (q : ℚ) (c : String)
    (newRid : Nat) (h : ratingInvariant db) :
    ratingInvariant (createReview db u m q c newRid).2 := by
  by_cases hv : reviewDocValid q c
  case neg =>
    unfold createReview
    rw [if_pos hv]
    exact h
  by_cases hdup : db.reviews.any (fun r => r.user == u && r.movie == m) = true
  · unfold createReview
    rw [if_neg (not_not_intro hv), if_pos hdup]
    exact h
  · intro i m0 hm
    rw [createReview_movies_main db u m q c newRid hv hdup] at hm
    rw [createReview_reviews_main db u m q c newRid hv hdup]
    by_cases hi : i = m
    · rw [hi] at hm ⊢
      rw [findMovie_updateMovieById_self] at hm
      on_goal 2 => exact fun mv => rfl
      obtain ⟨m1, hm1, hgm⟩ := Option.map_eq_some'.mp hm
      subst hgm
      have hmem : (⟨newRid, u, m, q, c⟩ : Review)
          ∈ reviewsFor (db.reviews ++ [⟨newRid, u, m, q, c⟩]) m :=
        List.mem_filter.mpr
          ⟨List.mem_append_right _ (List.mem_singleton_self _), by simp⟩
      have hlen : (reviewsFor (db.reviews ++ [⟨newRid, u, m, q, c⟩]) m).length ≠ 0 := by
        intro h0
        rw [List.length_eq_zero] at h0
        rw [h0] at hmem
        exact List.not_mem_nil _ hmem
      constructor
      · unfold meanRating
        rw [if_neg hlen]
      · rfl
    · rw [findMovie_updateMovieById_ne] at hm
      on_goal 2 => exact fun mv => rfl
      on_goal 2 => exact hi
      have hold := h i m0 hm
      rw [reviewsFor_append]
      rw [if_neg (by simp; omega)]
      rw [List.append_nil]
      exact hold

/-- `updateReview` preserves the rating invariant. -/
lemma ratingInvariant_updateReview (db : DB) (p : Principal) (reviewId : Nat)
    (q : ℚ) (c : String) (h : ratingInvariant db) :
    ratingInvariant (updateReview db p reviewId q c).2 := by
  cases hf : findReview db.reviews reviewId with
  | none => rw [updateReview_db_notFound db p reviewId q c hf]; exact h
  | some review =>
    by_cases hauth : review.user = p.pid ∨ p.role = Role.admin
    · intro i m0 hm
      rw [updateReview_movies_main db p reviewId q c review hf hauth] at hm
      rw [updateReview_reviews_main db p reviewId q c review hf hauth]
      by_cases hi : i = review.movie
      · rw [hi] at hm ⊢
        rw [findMovie_updateMovieById_self] at hm
        on_goal 2 => exact fun mv => rfl
        obtain ⟨m1, hm1, hgm⟩ := Option.map_eq_some'.mp hm
        subst hgm
        have hold := h review.movie m1 hm1
        have hmemold : review ∈ reviewsFor db.reviews review.movie :=
          mem_reviewsFor_of_findReview db.reviews reviewId review hf
        have hlenold : (reviewsFor db.reviews review.movie).length ≠ 0 := by
          intro h0
          rw [List.length_eq_zero] at h0
          rw [h0] at hmemold
          exact List.not_mem_nil _ hmemold
        have hlen : (reviewsFor (setReviewFirst db.reviews reviewId q c) review.movie).length
            ≠ 0 := by
          rw [length_reviewsFor_setReviewFirst]
          exact hlenold
        constructor
        · unfold meanRating
          rw [if_neg hlen]
        · show m1.totalRatings
              = (reviewsFor (setReviewFirst db.reviews reviewId q c) review.movie).length
          rw [length_reviewsFor_setReviewFirst]
          exact hold.2
      · rw [findMovie_updateMovieById_ne] at hm
        on_goal 2 => exact fun mv => rfl
        on_goal 2 => exact hi
        have hold := h i m0 hm
        rw [reviewsFor_setReviewFirst_ne db.reviews reviewId q c review i hf hi]
        exact hold
    · rw [updateReview_db_forbidden db p reviewId q c review hf hauth]
      exact h

/-- `deleteReview` preserves the rating invariant. -/
lemma ratingInvariant_deleteReview (db : DB) (p : Principal) (reviewId : Nat)
    (h : ratingInvariant db) :
    ratingInvariant (deleteReview db p reviewId).2 := by
  cases hf : findReview db.reviews reviewId with
  | none => rw [deleteReview_db_notFound db p reviewId hf]; exact h
  | some review =>
    by_cases hauth : review.user = p.pid ∨ p.role = Role.admin
    · intro i m0 hm
      rw [deleteReview_movies_main db p reviewId review hf hauth] at hm
      rw [deleteReview_reviews_main db p reviewId review hf hauth]
      by_cases hi : i = review.movie
      · subst hi
        rw [findMovie_updateMovieById_self] at hm
        on_goal 2 => exact fun mv => rfl
        obtain ⟨m1, hm1, hgm⟩ := Option.map_eq_some'.mp hm
        subst hgm
        exact ⟨rfl, rfl⟩
      · rw [findMovie_updateMovieById_ne] at hm
        on_goal 2 => exact fun mv => rfl
        on_goal 2 => exact hi
        have hold := h i m0 hm
        rw [reviewsFor_deleteReviewFirst_ne db.reviews reviewId review i hf hi]
        exact hold
    · rw [deleteReview_db_forbidden db p reviewId review hf hauth]
      exact h

/-- Every single review operation preserves the rating invariant. -/
lemma ratingInvariant_applyOp (db : DB) (op : ReviewOp) (h : ratingInvariant db) :
    ratingInvariant (applyOp db op) := by
  cases op with
  | create u m q c rid => exact ratingInvariant_createReview db u m q c rid h
  | update p rid q c => exact ratingInvariant_updateReview db p rid q c h
  | delete p rid => exact ratingInvariant_deleteReview db p rid h

/-- C1: starting from any database satisfying the rating invariant, after
any sequence of review create, update and delete operations every movie
addressable by id still carries the arithmetic mean (0 when empty) of
the ratings of the reviews currently referencing it in `averageRating`
and their count in `totalRatings`. -/
theorem rating_invariant_preserved (db : DB) (ops : List ReviewOp)
    (h : ratingInvariant db) : ratingInvariant (applyOps db ops) := by
  induction ops generalizing db with
  | nil => exact h
  | cons op rest ih => exact ih (applyOp db op) (ratingInvariant_applyOp db op h)

/-- The database of the C1 witness scenario: one movie, no reviews, derived
fields at their creation defaults. -/
def c1db : DB := ⟨[], [⟨42, ["action"], [], [], "PG", [], 0, 0⟩]⟩

/-- The operation sequence of the C1 witness: two creates and a delete,
mirroring the specification's worked scenario. -/
def c1ops : List ReviewOp :=
  [.create 1 42 5 "great movie" 100,
   .create 2 42 3 "fine" 101,
   .delete ⟨1, Role.user⟩ 100]

/-- C1 witness: the invariant holds for the concrete one-movie database and
survives the concrete create/create/delete sequence. -/
theorem rating_invariant_preserved_witness : ratingInvariant (applyOps c1db c1ops) :=
  rating_invariant_preserved c1db c1ops (by
    intro i m0 hm
    by_cases hb : i = 42
    · subst hb
      have hfind : findMovie c1db.movies 42
          = some ⟨42, ["action"], [], [], "PG", [], 0, 0⟩ := by decide
      rw [hfind] at hm
      injection hm with hm
      subst hm
      exact ⟨by decide, by decide⟩
    · simp only [c1db] at hm
      unfold findMovie at hm
      rw [List.find?_cons_of_neg _ (by simp; omega)] at hm
      exact nomatch hm)

end MovieAP
